import Mathlib

set_option maxHeartbeats 1600000

/-!
Shallow embedding of the Prompt DJ MIDI control-mapping and preset-state
subsystem: the `WeightKnob` component (drag/wheel clamping and halo
rendering), the `PromptController` component (CC routing, learn mode, text
editing), and the `PromptDjMidi` component (preset store, serialization,
prompt registry updates).

JavaScript `Map` objects are modelled as insertion-ordered association
lists.  `Prompt` objects are mutable on the JS heap and shared by
reference between the live registry and stored presets, so the embedding
carries an explicit heap (`List Prompt`) and represents a prompt map as a
list of `(promptId, heap index)` pairs.  Weights and other JS numbers are
modelled as rationals.
-/

/-- A prompt entry: id, text, weight, bound CC number and display color,
mirroring the `Prompt` record exchanged between components. -/
structure Prompt where
  promptId : String
  text : String
  weight : ℚ
  cc : Nat
  color : String
deriving DecidableEq, Repr

instance : Inhabited Prompt := ⟨⟨"", "", 0, 0, ""⟩⟩

/-- The payload of a `cc-message` event dispatched by `MidiDispatcher`. -/
structure ControlChange where
  cc : Nat
  value : Nat
  channel : Nat
deriving DecidableEq, Repr

/-- The state of one `PromptController` element (src/unnamed/part_001). -/
structure PCState where
  promptId : String
  text : String
  weight : ℚ
  color : String
  cc : Nat
  channel : Nat
  learnMode : Bool
  showCC : Bool
  lastValidText : String
deriving DecidableEq, Repr

/-- The state of one `WeightKnob` element (src/components/WeightKnob.ts). -/
structure WKState where
  value : ℚ
  dragStartPos : ℚ
  dragStartValue : ℚ
deriving DecidableEq, Repr

/-- A value stored under the presets key in `localStorage`.  Model of the
text blob read back by `JSON.parse`: either the well-formed serialization
of a preset record (an ordered record of preset name to an array of
`[promptId, Prompt]` pairs) or malformed text that `JSON.parse` rejects. -/
inductive StoredBlob where
  | wellFormed (v : List (String × List (String × Prompt)))
  | malformed
deriving DecidableEq, Repr

/-- The preset / registry state of the `PromptDjMidi` element
(src/unnamed/part_002).  `heap` is the JS heap of `Prompt` objects; maps
of prompts hold references (indices) into it, so that the in-place
mutation performed by `handlePromptChanged` is visible through every map
that shares the object. -/
structure DjState where
  heap : List Prompt
  defaultPresets : List (String × List (String × Nat))
  presets : List (String × List (String × Nat))
  activePresetName : String
  prompts : List (String × Nat)
  storage : Option StoredBlob
deriving DecidableEq, Repr

/-- `Map.get` / `Map.has`: first-match lookup in an association list. -/
def jsGet {α : Type} (m : List (String × α)) (k : String) : Option α :=
  match m with
  | [] => none
  | (k1, v1) :: rest => if k1 = k then some v1 else jsGet rest k

/-- `Map.set`: update the value in place if the key exists (keeping its
position), otherwise append a new entry. -/
def jsSetAssoc {α : Type} (m : List (String × α)) (k : String) (v : α) :
    List (String × α) :=
  match m with
  | [] => [(k, v)]
  | (k1, v1) :: rest =>
    if k1 = k then (k1, v) :: rest else (k1, v1) :: jsSetAssoc rest k v

/-- `new Map(pairs)`: build a map by inserting the pairs in order (a later
duplicate key overwrites the value but keeps the first position). -/
def jsFromPairs {α : Type} (ps : List (String × α)) : List (String × α) :=
  ps.foldl (fun m kv => jsSetAssoc m kv.1 kv.2) []

/-- Drop leading whitespace characters from a character list. -/
def dropLeadingWs : List Char → List Char
  | [] => []
  | c :: rest => if c.isWhitespace then dropLeadingWs rest else c :: rest

/-- JS `String.prototype.trim` (whitespace per `Char.isWhitespace`):
drop whitespace from both ends. -/
def jsTrim (s : String) : String :=
  ⟨(dropLeadingWs (dropLeadingWs s.data).reverse).reverse⟩

/-- Digits-to-number reading used to order integer-like JS property keys. -/
def strToNat (s : String) : Nat :=
  s.data.foldl (fun n c => n * 10 + (c.toNat - 48)) 0

/-- Whether a JS property key is an array index (canonical decimal form of
an integer below 2^32 - 1); such keys are enumerated first, in ascending
numeric order, by `for..in` and `JSON.stringify`. -/
def isArrayIndexKey (s : String) : Bool :=
  !s.data.isEmpty && s.data.all Char.isDigit
    && (s == "0" || !(s.data.head?.getD ' ' == '0'))
    && decide (strToNat s < 4294967295)

/-- JS own-property enumeration order for a record: array-index keys first
in ascending numeric order, then the remaining keys in insertion order. -/
def jsOwnKeyOrder {α : Type} (m : List (String × α)) : List (String × α) :=
  List.insertionSort (fun a b => strToNat a.1 ≤ strToNat b.1)
      (m.filter (fun e => isArrayIndexKey e.1))
    ++ m.filter (fun e => !isArrayIndexKey e.1)

/-- Dereference a heap index (total; reachable states only use live
indices, where this agrees with JS object dereference). -/
def derefD (heap : List Prompt) (r : Nat) : Prompt :=
  (heap[r]?).getD default

/-- Read a prompt map through the heap, yielding the value-level entries
that `Array.from(promptMap.entries())` observes at serialization time. -/
def resolveEntries (heap : List Prompt) (pm : List (String × Nat)) :
    List (String × Prompt) :=
  pm.map (fun e => (e.1, derefD heap e.2))

/-- Model of the JS builtin `JSON.parse` on the blob shapes this program
stores: the well-formed serialization of a preset record parses back to
its record, malformed text throws a `SyntaxError`. -/
def jsonParse (b : StoredBlob) :
    Except String (List (String × List (String × Prompt))) :=
  match b with
  | .wellFormed v => .ok v
  | .malformed => .error "SyntaxError: Unexpected token in JSON"

/-- `serializePresets` (src/unnamed/part_002, lines 175-181) on the
value-level preset record: build a plain object keyed by preset name with
the entry arrays as values, then `JSON.stringify` it, which writes own
keys in JS property order. -/
def serializePresetsV (ps : List (String × List (String × Prompt))) :
    StoredBlob :=
  .wellFormed (jsOwnKeyOrder (jsFromPairs ps))

/-- `deserializePresets` (src/unnamed/part_002, lines 183-192):
`JSON.parse` the blob (propagating its exception), then rebuild a
`Map` of `Map`s by iterating the parsed object with `for..in` (JS
property order) and `new Map(pairs)` per preset. -/
def deserializePresetsV (b : StoredBlob) :
    Except String (List (String × List (String × Prompt))) :=
  match jsonParse b with
  | .error e => .error e
  | .ok obj => .ok (jsFromPairs ((jsOwnKeyOrder obj).map
      (fun e => (e.1, jsFromPairs e.2))))

/-- Allocate the prompts of one deserialized preset as fresh objects on
the heap, returning the extended heap and the reference map. -/
def allocEntries (heap : List Prompt) (entries : List (String × Prompt)) :
    List Prompt × List (String × Nat) :=
  match entries with
  | [] => (heap, [])
  | (i, p) :: rest =>
    let res := allocEntries (heap ++ [p]) rest
    (res.1, (i, heap.length) :: res.2)

/-- Allocate every deserialized preset on the heap. -/
def allocPresets (heap : List Prompt)
    (ps : List (String × List (String × Prompt))) :
    List Prompt × List (String × List (String × Nat)) :=
  match ps with
  | [] => (heap, [])
  | (n, es) :: rest =>
    let r1 := allocEntries heap es
    let r2 := allocPresets r1.1 rest
    (r2.1, (n, r1.2) :: r2.2)

/-- The `prompt-changed` event detail built by `dispatchPromptChange`
(src/unnamed/part_001, lines 159-172) from the controller's current
state. -/
def dispatchPromptChange (st : PCState) : Prompt :=
  { promptId := st.promptId, text := st.text, weight := st.weight,
    cc := st.cc, color := st.color }

/-- The `cc-message` handler registered in `connectedCallback`
(src/unnamed/part_001, lines 119-134): in learn mode the first message
rebinds `cc` and `channel`, exits learn mode and dispatches; otherwise a
message on the bound CC sets `weight = value / 127 * 2` and dispatches;
any other message is ignored.  Returns the new state and the list of
`prompt-changed` events dispatched. -/
def handleCCMessage (st : PCState) (m : ControlChange) :
    PCState × List Prompt :=
  if st.learnMode then
    let st1 :=
      { st with cc := m.cc, channel := m.channel, learnMode := false }
    (st1, [dispatchPromptChange st1])
  else if m.cc = st.cc then
    let st1 := { st with weight := (m.value : ℚ) / 127 * 2 }
    (st1, [dispatchPromptChange st1])
  else (st, [])

/-- `toggleLearnMode` (src/unnamed/part_001, lines 229-231): flip this
controller's own `learnMode` flag. -/
def toggleLearnMode (st : PCState) : PCState :=
  { st with learnMode := !st.learnMode }

/-- Clicking the MIDI label of knob `j` in a grid of controllers: only
that knob's `toggleLearnMode` runs; every other knob is untouched. -/
def toggleLearnOn (knobs : List PCState) (j : Nat) : List PCState :=
  match knobs[j]? with
  | some k => knobs.set j (toggleLearnMode k)
  | none => knobs

/-- The number of knobs currently in learn mode. -/
def countLearning (knobs : List PCState) : Nat :=
  (knobs.filter (fun k => k.learnMode)).length

/-- `handlePointerMove` (src/components/WeightKnob.ts, lines 81-88):
vertical drag delta at sensitivity 0.01, clamped to [0, 2]; dispatches
one `input` event carrying the new value. -/
def handlePointerMove (st : WKState) (clientY : ℚ) : WKState × List ℚ :=
  let delta := st.dragStartPos - clientY
  let v1 := st.dragStartValue + delta * (1 / 100)
  let v2 := max 0 (min 2 v1)
  ({ st with value := v2 }, [v2])

/-- `handleWheel` (src/components/WeightKnob.ts, lines 100-107): add
`deltaY * -0.0025` to the value, clamped to [0, 2]; dispatches one
`input` event carrying the new value. -/
def handleWheel (st : WKState) (deltaY : ℚ) : WKState × List ℚ :=
  let v1 := st.value + deltaY * (-(1 / 400))
  let v2 := max 0 (min 2 v1)
  ({ st with value := v2 }, [v2])

/-- `MIN_HALO_SCALE` (src/components/WeightKnob.ts, line 10). -/
def MIN_HALO_SCALE : ℚ := 1

/-- `MAX_HALO_SCALE` (src/components/WeightKnob.ts, line 11). -/
def MAX_HALO_SCALE : ℚ := 2

/-- `HALO_LEVEL_MODIFIER` (src/components/WeightKnob.ts, line 14). -/
def HALO_LEVEL_MODIFIER : ℚ := 1

/-- The halo transform scale computed in `WeightKnob.render`
(src/components/WeightKnob.ts, lines 138-140). -/
def haloScale (value audioLevel : ℚ) : ℚ :=
  value / 2 * (MAX_HALO_SCALE - MIN_HALO_SCALE) + MIN_HALO_SCALE
    + audioLevel * HALO_LEVEL_MODIFIER

/-- The halo `display` style computed in `WeightKnob.render`
(src/components/WeightKnob.ts, line 143): `block` when `value > 0`,
otherwise `none`. -/
def haloDisplay (value : ℚ) : String :=
  if 0 < value then "block" else "none"

/-- `resetText` (src/unnamed/part_001, lines 190-194): restore the last
valid text. -/
def resetText (st : PCState) : PCState :=
  { st with text := st.lastValidText }

/-- `updateText` (src/unnamed/part_001, lines 196-209): on blur, trim the
edited text; if it is empty restore the last valid text, otherwise store
it and remember it as last valid; either way dispatch one
`prompt-changed` event. -/
def updateText (st : PCState) (textContent : String) :
    PCState × List Prompt :=
  let newText := jsTrim textContent
  let st1 :=
    if newText = "" then resetText st
    else { st with text := newText, lastValidText := newText }
  (st1, [dispatchPromptChange st1])

/-- `savePresetsToStorage` (src/unnamed/part_002, lines 194-203): filter
the user presets (names not in the default table), serialize them reading
the prompt objects through the heap, and write the blob to storage. -/
def savePresetsToStorage (s : DjState) : DjState :=
  let userPresets :=
    s.presets.filter (fun e => (jsGet s.defaultPresets e.1).isNone)
  { s with storage := some (serializePresetsV
      (userPresets.map (fun e => (e.1, resolveEntries s.heap e.2)))) }

/-- `saveCurrentPreset` (src/unnamed/part_002, lines 230-253).  The
`window.prompt` result and the `confirm` answer are passed in as
arguments.  An aborted save (cancelled prompt, blank name, default name,
declined overwrite) returns the state unchanged; a successful save sets
`presets[name]` to `new Map(this.prompts)` — a copy of the map that
shares the underlying `Prompt` references — marks the name active and
persists the user presets. -/
def saveCurrentPreset (s : DjState) (promptResult : Option String)
    (confirmOverwrite : Bool) : DjState :=
  match promptResult with
  | none => s
  | some n0 =>
    if n0 = "" then s
    else
      let name := jsTrim n0
      if name = "" then s
      else if (jsGet s.defaultPresets name).isSome then s
      else if (jsGet s.presets name).isSome
          && !(jsGet s.defaultPresets name).isSome
          && !confirmOverwrite then s
      else
        savePresetsToStorage
          { s with presets := jsSetAssoc s.presets name s.prompts,
                   activePresetName := name }

/-- `handlePromptChanged` (src/unnamed/part_002, lines 271-294): look the
prompt up in the live registry; if absent, log and drop.  Otherwise
mutate the `Prompt` object in place (text, weight, cc — the heap cell is
shared with every map holding the same reference), rebuild
`this.prompts` as `new Map(this.prompts)` with the same references, and
dispatch one `prompts-changed` event carrying the registry. -/
def handlePromptChanged (s : DjState) (d : Prompt) :
    DjState × List (List (String × Nat)) :=
  match jsGet s.prompts d.promptId with
  | none => (s, [])
  | some r =>
    let old := derefD s.heap r
    let heap1 := s.heap.set r
      { old with text := d.text, weight := d.weight, cc := d.cc }
    let newPrompts := jsSetAssoc s.prompts d.promptId r
    ({ s with heap := heap1, prompts := newPrompts }, [newPrompts])

/-- `loadActivePreset` (src/unnamed/part_002, lines 212-222): if the
active name is present, replace the registry with `new Map` of its map
(same prompt references) and dispatch one `prompts-changed` event;
otherwise do nothing. -/
def loadActivePreset (s : DjState) : DjState × List (List (String × Nat)) :=
  match jsGet s.presets s.activePresetName with
  | some pm => ({ s with prompts := pm }, [pm])
  | none => (s, [])

/-- `handlePresetChange` (src/unnamed/part_002, lines 224-228): set the
active preset name to the selected value unconditionally, then run
`loadActivePreset`. -/
def handlePresetChange (s : DjState) (value : String) :
    DjState × List (List (String × Nat)) :=
  loadActivePreset { s with activePresetName := value }

/-- `loadPresets` (src/unnamed/part_002, lines 205-210): read the stored
blob; a missing blob means no user presets, a present blob is
deserialized (whose `JSON.parse` exception propagates — there is no
try/catch).  Deserialized prompts are fresh objects allocated on the
heap.  Merge defaults with user presets (user value wins on a name
collision) and run `loadActivePreset`. -/
def loadPresets (s : DjState) :
    Except String (DjState × List (List (String × Nat))) := do
  let userV ← match s.storage with
    | some blob => deserializePresetsV blob
    | none => pure []
  let ar := allocPresets s.heap userV
  let presets1 := jsFromPairs (s.defaultPresets ++ ar.2)
  pure (loadActivePreset { s with heap := ar.1, presets := presets1 })

/-- First prompt of the built-in preset used in the concrete states below
(src/index.tsx, `buildInitialPresets`). -/
def P0 : Prompt :=
  { promptId := "prompt-0", text := "Lush Strings", weight := 1, cc := 0,
    color := "#3dffab" }

/-- A `prompt-changed` detail that sets the weight of `prompt-0` to 2. -/
def d0 : Prompt :=
  { promptId := "prompt-0", text := "Lush Strings", weight := 2, cc := 0,
    color := "#3dffab" }

/-- A concrete startup state: one default preset holding one prompt, the
registry loaded from it (sharing the prompt reference), nothing stored. -/
def s0 : DjState :=
  { heap := [P0],
    defaultPresets := [("Ambient Dreams", [("prompt-0", 0)])],
    presets := [("Ambient Dreams", [("prompt-0", 0)])],
    activePresetName := "Ambient Dreams",
    prompts := [("prompt-0", 0)],
    storage := none }

/-- `s0` with a malformed blob sitting in storage. -/
def s0mal : DjState := { s0 with storage := some StoredBlob.malformed }

/-- A knob already in learn mode. -/
def k0 : PCState :=
  { promptId := "prompt-0", text := "Lush Strings", weight := 1,
    color := "#3dffab", cc := 0, channel := 0, learnMode := true,
    showCC := true, lastValidText := "Lush Strings" }

/-- A second knob, not in learn mode, bound to cc 1. -/
def k1 : PCState :=
  { promptId := "prompt-1", text := "Sparkling Arpeggios", weight := 1,
    color := "#d8ff3e", cc := 1, channel := 0, learnMode := false,
    showCC := true, lastValidText := "Sparkling Arpeggios" }

/-- A knob bound to cc 7, not in learn mode (the spec scenario). -/
def k7 : PCState :=
  { promptId := "prompt-7", text := "Glassy FM Synthesis", weight := 0,
    color := "#d9b2ff", cc := 7, channel := 0, learnMode := false,
    showCC := false, lastValidText := "Glassy FM Synthesis" }

/-- A concrete preset record with an array-index-like name, used to
exercise the serialization round trip (the name "10" is enumerated first
by JS property order even though it is inserted second). -/
def ps8 : List (String × List (String × Prompt)) :=
  [("Ambient Dreams", [("prompt-0", P0)]),
   ("10", [("prompt-0", P0), ("prompt-1", d0)])]

/-! Association-list lemmas about the JS `Map` and object model. -/

theorem jsGet_jsSetAssoc_self {α : Type} (m : List (String × α)) (k : String)
    (v : α) : jsGet (jsSetAssoc m k v) k = some v := by
  induction m with
  | nil => simp [jsSetAssoc, jsGet]
  | cons hd tl ih =>
    obtain ⟨k1, v1⟩ := hd
    by_cases h : k1 = k
    · simp [jsSetAssoc, jsGet, h]
    · simp [jsSetAssoc, jsGet, h, ih]

theorem jsSetAssoc_of_not_mem {α : Type} {m : List (String × α)} {k : String}
    (v : α) (h : k ∉ m.map Prod.fst) : jsSetAssoc m k v = m ++ [(k, v)] := by
  induction m with
  | nil => simp [jsSetAssoc]
  | cons hd tl ih =>
    obtain ⟨k1, v1⟩ := hd
    simp only [List.map_cons, List.mem_cons] at h
    push_neg at h
    have h1 : ¬ k1 = k := fun hh => h.1 hh.symm
    simp [jsSetAssoc, h1, ih h.2]

theorem jsFromPairs_foldl {α : Type} (l : List (String × α)) :
    ∀ acc : List (String × α), ((acc ++ l).map Prod.fst).Nodup →
      List.foldl (fun m kv => jsSetAssoc m kv.1 kv.2) acc l = acc ++ l := by
  induction l with
  | nil => intro acc _; simp
  | cons hd tl ih =>
    intro acc h
    obtain ⟨k, v⟩ := hd
    have hk : k ∉ acc.map Prod.fst := by
      intro hmem
      rw [List.map_append, List.nodup_append] at h
      exact h.2.2 hmem (by simp)
    rw [List.foldl_cons]
    show List.foldl _ (jsSetAssoc acc k v) tl = _
    rw [jsSetAssoc_of_not_mem v hk]
    have h2 : (((acc ++ [(k, v)]) ++ tl).map Prod.fst).Nodup := by
      simpa [List.append_assoc] using h
    have := ih (acc ++ [(k, v)]) h2
    simpa [List.append_assoc] using this

theorem jsFromPairs_of_nodup {α : Type} {l : List (String × α)}
    (h : (l.map Prod.fst).Nodup) : jsFromPairs l = l := by
  simpa [jsFromPairs] using jsFromPairs_foldl l [] (by simpa using h)

theorem jsOwnKeyOrder_perm {α : Type} (l : List (String × α)) :
    (jsOwnKeyOrder l).Perm l := by
  unfold jsOwnKeyOrder
  exact ((List.perm_insertionSort _ _).append (List.Perm.refl _)).trans
    (List.filter_append_perm _ l)

theorem jsGet_eq_none_iff {α : Type} {l : List (String × α)} {k : String} :
    jsGet l k = none ↔ k ∉ l.map Prod.fst := by
  induction l with
  | nil => simp [jsGet]
  | cons hd tl ih =>
    obtain ⟨k1, v1⟩ := hd
    by_cases h : k1 = k
    · subst h; simp [jsGet]
    · have hne : ¬ k = k1 := fun hh => h hh.symm
      simp [jsGet, h, ih, hne]

theorem mem_of_jsGet_eq_some {α : Type} {l : List (String × α)} {k : String}
    {v : α} (h : jsGet l k = some v) : (k, v) ∈ l := by
  induction l with
  | nil => simp [jsGet] at h
  | cons hd tl ih =>
    obtain ⟨k1, v1⟩ := hd
    by_cases hk : k1 = k
    · subst hk
      have hv : v1 = v := by simpa [jsGet] using h
      subst hv
      exact List.mem_cons_self _ _
    · simp only [jsGet, if_neg hk] at h
      exact List.mem_cons_of_mem _ (ih h)

theorem jsGet_eq_some_of_mem {α : Type} {l : List (String × α)} {k : String}
    {v : α} (hnd : (l.map Prod.fst).Nodup) (hm : (k, v) ∈ l) :
    jsGet l k = some v := by
  induction l with
  | nil => simp at hm
  | cons hd tl ih =>
    obtain ⟨k1, v1⟩ := hd
    simp only [List.map_cons, List.nodup_cons] at hnd
    rcases List.mem_cons.mp hm with heq | hmem
    · simp only [Prod.mk.injEq] at heq
      obtain ⟨rfl, rfl⟩ := heq
      simp [jsGet]
    · have hne : ¬ k1 = k := by
        intro hh
        subst hh
        exact hnd.1 (List.mem_map_of_mem Prod.fst hmem)
      simp [jsGet, hne, ih hnd.2 hmem]

theorem jsGet_perm {α : Type} {l1 l2 : List (String × α)} (hp : l1.Perm l2)
    (hnd : (l1.map Prod.fst).Nodup) (k : String) :
    jsGet l1 k = jsGet l2 k := by
  cases h : jsGet l1 k with
  | none =>
    have hk : k ∉ l1.map Prod.fst := jsGet_eq_none_iff.mp h
    have hk2 : k ∉ l2.map Prod.fst := fun hm =>
      hk ((hp.map Prod.fst).mem_iff.mpr hm)
    exact (jsGet_eq_none_iff.mpr hk2).symm
  | some v =>
    have hm : (k, v) ∈ l2 := hp.mem_iff.mp (mem_of_jsGet_eq_some h)
    have hnd2 : (l2.map Prod.fst).Nodup := (hp.map Prod.fst).nodup hnd
    exact (jsGet_eq_some_of_mem hnd2 hm).symm

theorem derefD_set_self (heap : List Prompt) (r : Nat) (p : Prompt)
    (h : r < heap.length) : derefD (heap.set r p) r = p := by
  simp [derefD, List.getElem?_set, h]

/-- Bounds of the `Math.max(0, Math.min(2, x))` clamp. -/
theorem clamp02_bounds (x : ℚ) :
    0 ≤ max 0 (min 2 x) ∧ max 0 (min 2 x) ≤ 2 :=
  ⟨le_max_left 0 _, max_le (by norm_num) (min_le_left 2 x)⟩

/-- C5: a CC message with value in [0,127] delivered to a knob that is
not in learn mode: on the bound CC the weight becomes exactly
value / 127 * 2 and exactly one changed event fires; on any other CC no
changed event fires and the knob state is unchanged. -/
theorem cc_message_weight_update (st : PCState) (m : ControlChange)
    (hlearn : st.learnMode = false) (hv : m.value ≤ 127) :
    (m.cc = st.cc →
      (handleCCMessage st m).1.weight = (m.value : ℚ) / 127 * 2 ∧
      (handleCCMessage st m).2.length = 1) ∧
    (¬ m.cc = st.cc →
      (handleCCMessage st m).2 = [] ∧ (handleCCMessage st m).1 = st) := by
  constructor
  · intro hcc
    simp [handleCCMessage, hlearn, hcc]
  · intro hcc
    simp [handleCCMessage, hlearn, hcc]

/-- C5 witness: the spec scenario, `cc=7, value=64` on a knob bound to
cc 7 (one event, weight 64/127*2), and the same message against a knob
whose bound cc differs (no event, state unchanged). -/
theorem cc_message_weight_update_witness :
    ((64 : Nat) ≤ 127 ∧
      (handleCCMessage k7 ⟨7, 64, 0⟩).1.weight = ((64 : Nat) : ℚ) / 127 * 2 ∧
      (handleCCMessage k7 ⟨7, 64, 0⟩).2.length = 1) ∧
    ((handleCCMessage k7 ⟨8, 64, 0⟩).2 = [] ∧
      (handleCCMessage k7 ⟨8, 64, 0⟩).1 = k7) :=
  ⟨⟨by norm_num, (cc_message_weight_update k7 ⟨7, 64, 0⟩ rfl (by norm_num)).1 rfl⟩,
   (cc_message_weight_update k7 ⟨8, 64, 0⟩ rfl (by norm_num)).2 (by decide)⟩

/-- C6: every value stored by a drag update, a wheel update, or a CC
message with value in [0,127] on the bound CC lies in [0,2]. -/
theorem knob_value_clamped (wst : WKState) (y dy : ℚ) (st : PCState)
    (m : ControlChange) (hlearn : st.learnMode = false)
    (hcc : m.cc = st.cc) (hv : m.value ≤ 127) :
    (0 ≤ (handlePointerMove wst y).1.value ∧
      (handlePointerMove wst y).1.value ≤ 2) ∧
    (0 ≤ (handleWheel wst dy).1.value ∧ (handleWheel wst dy).1.value ≤ 2) ∧
    (0 ≤ (handleCCMessage st m).1.weight ∧
      (handleCCMessage st m).1.weight ≤ 2) := by
  refine ⟨?_, ?_, ?_⟩
  · simpa [handlePointerMove] using
      clamp02_bounds (wst.dragStartValue + (wst.dragStartPos - y) * (1 / 100))
  · simpa [handleWheel] using clamp02_bounds (wst.value + dy * (-(1 / 400)))
  · have h1 : (handleCCMessage st m).1.weight = (m.value : ℚ) / 127 * 2 := by
      simp [handleCCMessage, hlearn, hcc]
    rw [h1]
    constructor
    · positivity
    · have hvq : (m.value : ℚ) ≤ 127 := by exact_mod_cast hv
      rw [div_mul_eq_mul_div, div_le_iff (by norm_num : (0 : ℚ) < 127)]
      linarith

/-- C6 witness: a drag far past the top, a large wheel step, and a CC
message at full value all land inside [0,2]. -/
theorem knob_value_clamped_witness :
    (0 ≤ (handlePointerMove ⟨1, 0, 1⟩ (-1000)).1.value ∧
      (handlePointerMove ⟨1, 0, 1⟩ (-1000)).1.value ≤ 2) ∧
    (0 ≤ (handleWheel ⟨1, 0, 1⟩ 5000).1.value ∧
      (handleWheel ⟨1, 0, 1⟩ 5000).1.value ≤ 2) ∧
    (0 ≤ (handleCCMessage k7 ⟨7, 127, 0⟩).1.weight ∧
      (handleCCMessage k7 ⟨7, 127, 0⟩).1.weight ≤ 2) :=
  knob_value_clamped ⟨1, 0, 1⟩ (-1000) 5000 k7 ⟨7, 127, 0⟩ rfl rfl
    (by norm_num)

/-- C7: a knob in learn mode receiving a CC message rebinds its `cc` (and
`channel`) to the message's numbers, exits learn mode, and emits exactly
one changed event carrying the pre-existing weight; the stored weight is
not changed. -/
theorem learn_rebind_preserves_weight (st : PCState) (m : ControlChange)
    (h : st.learnMode = true) :
    handleCCMessage st m =
      ({ st with cc := m.cc, channel := m.channel, learnMode := false },
       [{ promptId := st.promptId, text := st.text, weight := st.weight,
          cc := m.cc, color := st.color }]) := by
  simp [handleCCMessage, h, dispatchPromptChange]

/-- C7 witness: the learning knob `k0` receiving `cc=5, value=99` rebinds
to cc 5, leaves learn mode, keeps weight 1, and emits one event carrying
weight 1. -/
theorem learn_rebind_preserves_weight_witness :
    handleCCMessage k0 ⟨5, 99, 2⟩ =
      ({ k0 with cc := 5, channel := 2, learnMode := false },
       [{ promptId := k0.promptId, text := k0.text, weight := k0.weight,
          cc := 5, color := k0.color }]) :=
  learn_rebind_preserves_weight k0 ⟨5, 99, 2⟩ rfl

/-- C9: for every weight in [0,2] and every audio level, the halo scale
equals MIN_SCALE + (weight/2)*(MAX_SCALE-MIN_SCALE) + audioLevel*LEVEL_MODIFIER
with MIN_SCALE = 1, MAX_SCALE = 2, LEVEL_MODIFIER = 1, and the halo is
hidden (display none) exactly when the weight is 0. -/
theorem halo_scale_and_visibility (w a : ℚ) (h0 : 0 ≤ w) (h2 : w ≤ 2) :
    haloScale w a
        = MIN_HALO_SCALE + w / 2 * (MAX_HALO_SCALE - MIN_HALO_SCALE)
          + a * HALO_LEVEL_MODIFIER ∧
    MIN_HALO_SCALE = 1 ∧ MAX_HALO_SCALE = 2 ∧ HALO_LEVEL_MODIFIER = 1 ∧
    (haloDisplay w = "none" ↔ w = 0) := by
  refine ⟨by unfold haloScale; ring, rfl, rfl, rfl, ?_⟩
  unfold haloDisplay
  by_cases hw : 0 < w
  · rw [if_pos hw]
    exact iff_of_false (by decide) (fun hz => absurd (hz ▸ hw) (lt_irrefl 0))
  · rw [if_neg hw]
    exact iff_of_true rfl (le_antisymm (not_lt.mp hw) h0)

/-- C9 witness: the spec scenario, weight 1 at audio level 0 gives scale
MIN + 0.5*(MAX-MIN) = 3/2 and a visible halo; weight 0 hides the halo. -/
theorem halo_scale_and_visibility_witness :
    (haloScale 1 0
        = MIN_HALO_SCALE + 1 / 2 * (MAX_HALO_SCALE - MIN_HALO_SCALE)
          + 0 * HALO_LEVEL_MODIFIER ∧
      MIN_HALO_SCALE = 1 ∧ MAX_HALO_SCALE = 2 ∧ HALO_LEVEL_MODIFIER = 1 ∧
      (haloDisplay 1 = "none" ↔ (1 : ℚ) = 0)) ∧
    (haloDisplay 0 = "none" ↔ (0 : ℚ) = 0) :=
  ⟨halo_scale_and_visibility 1 0 (by norm_num) (by norm_num),
   (halo_scale_and_visibility 0 0 (by norm_num) (by norm_num)).2.2.2.2⟩

/-- C10: committing a text edit whose trimmed content is empty restores
the previous valid text (and keeps it as last valid) while still
dispatching exactly one changed event; a non-empty trimmed text becomes
both the stored text and the new last valid text, with one event. -/
theorem updateText_trim_spec (st : PCState) (content : String) :
    (jsTrim content = "" →
      (updateText st content).1.text = st.lastValidText ∧
      (updateText st content).1.lastValidText = st.lastValidText ∧
      (updateText st content).2.length = 1) ∧
    (¬ jsTrim content = "" →
      (updateText st content).1.text = jsTrim content ∧
      (updateText st content).1.lastValidText = jsTrim content ∧
      (updateText st content).2.length = 1) := by
  constructor
  · intro h
    simp [updateText, h, resetText]
  · intro h
    simp [updateText, h]

/-- C10 witness: blurring with whitespace-only content restores the last
valid text of `k1` with one event; blurring with padded non-empty content
stores the trimmed text and updates last valid, with one event. -/
theorem updateText_trim_spec_witness :
    ((updateText k1 "   ").1.text = k1.lastValidText ∧
      (updateText k1 "   ").1.lastValidText = k1.lastValidText ∧
      (updateText k1 "   ").2.length = 1) ∧
    ((updateText k1 "  hi  ").1.text = jsTrim "  hi  " ∧
      (updateText k1 "  hi  ").1.lastValidText = jsTrim "  hi  " ∧
      (updateText k1 "  hi  ").2.length = 1) :=
  ⟨(updateText_trim_spec k1 "   ").1 (by decide),
   (updateText_trim_spec k1 "  hi  ").2 (by decide)⟩

/-- C2 counterexample: with knob 0 already in learn mode, toggling learn
on knob 1 leaves BOTH knobs in learn mode — the claimed mutual exclusion
(exactly one learning knob afterward) does not hold in the code. -/
theorem learn_mode_not_exclusive_cx :
    (toggleLearnOn [k0, k1] 1).map (fun k => k.learnMode) = [true, true] ∧
    countLearning (toggleLearnOn [k0, k1] 1) = 2 ∧ ¬ (2 = 1) :=
  ⟨by decide, by decide, by decide⟩

/-- C2 amended: learn flags are independent per knob — toggling learn on
knob j does not touch any other knob, so entering learn on knob j while
knob i is already learning leaves both knobs in learn mode. -/
theorem toggleLearn_per_knob_independent (knobs : List PCState) (i j : Nat)
    (hij : ¬ i = j)
    (hi : (knobs[i]?).map (fun k => k.learnMode) = some true)
    (hj : (knobs[j]?).map (fun k => k.learnMode) = some false) :
    ((toggleLearnOn knobs j)[i]?).map (fun k => k.learnMode) = some true ∧
    ((toggleLearnOn knobs j)[j]?).map (fun k => k.learnMode) = some true := by
  obtain ⟨kj, hkj⟩ : ∃ kj, knobs[j]? = some kj := by
    cases h : knobs[j]? with
    | none => rw [h] at hj; simp at hj
    | some kj => exact ⟨kj, rfl⟩
  have hjl : kj.learnMode = false := by
    rw [hkj] at hj
    simpa using hj
  have hlen : j < knobs.length := by
    rcases List.getElem?_eq_some.mp hkj with ⟨hl, _⟩
    exact hl
  have ht : toggleLearnOn knobs j = knobs.set j (toggleLearnMode kj) := by
    simp [toggleLearnOn, hkj]
  constructor
  · rw [ht, List.getElem?_set, if_neg (fun hh => hij hh.symm)]
    exact hi
  · rw [ht, List.getElem?_set, if_pos rfl, if_pos hlen]
    simp [toggleLearnMode, hjl]

/-- C2 amended witness: in the two-knob grid with knob 0 learning,
toggling learn on knob 1 leaves both learning. -/
theorem toggleLearn_per_knob_independent_witness :
    ((toggleLearnOn [k0, k1] 1)[0]?).map (fun k => k.learnMode)
        = some true ∧
    ((toggleLearnOn [k0, k1] 1)[1]?).map (fun k => k.learnMode)
        = some true :=
  toggleLearn_per_knob_independent [k0, k1] 0 1 (by decide) (by decide)
    (by decide)

/-- C4 counterexample: switching to the absent preset name "Ghost" raises
no error, triggers no registry load, but DOES overwrite the active preset
name — so "the active preset name ... unchanged" is false in the code. -/
theorem switchTo_unknown_mutates_active_name_cx :
    (handlePresetChange s0 "Ghost").1.activePresetName = "Ghost" ∧
    ¬ (handlePresetChange s0 "Ghost").1.activePresetName
        = s0.activePresetName ∧
    (handlePresetChange s0 "Ghost").2 = [] ∧
    (handlePresetChange s0 "Ghost").1.prompts = s0.prompts :=
  ⟨by decide, by decide, by decide, by decide⟩

/-- C4 amended: switching to an absent name performs no registry load and
dispatches no event (and the operation has no error outcome at all), but
still sets the active preset name to the absent name; switching to a
present name marks it active, replaces the registry with that preset's
map and dispatches exactly one registry-load event. -/
theorem handlePresetChange_spec (s : DjState) (name : String) :
    (jsGet s.presets name = none →
      handlePresetChange s name
        = ({ s with activePresetName := name }, [])) ∧
    (∀ pm, jsGet s.presets name = some pm →
      handlePresetChange s name
        = ({ s with activePresetName := name, prompts := pm }, [pm])) := by
  constructor
  · intro h
    simp [handlePresetChange, loadActivePreset, h]
  · intro pm h
    simp [handlePresetChange, loadActivePreset, h]

/-- C4 amended witness: both branches at the concrete startup state. -/
theorem handlePresetChange_spec_witness :
    handlePresetChange s0 "Ghost"
        = ({ s0 with activePresetName := "Ghost" }, []) ∧
    handlePresetChange s0 "Ambient Dreams"
        = ({ s0 with
              activePresetName := "Ambient Dreams",
              prompts := [("prompt-0", 0)] }, [[("prompt-0", 0)]]) :=
  ⟨(handlePresetChange_spec s0 "Ghost").1 (by decide),
   (handlePresetChange_spec s0 "Ambient Dreams").2 [("prompt-0", 0)]
     (by decide)⟩

/-- `savePresetsToStorage` only writes storage: the other fields of the
state are untouched. -/
theorem savePresetsToStorage_presets (s : DjState) :
    (savePresetsToStorage s).presets = s.presets := rfl

/-- `loadActivePreset` never changes the preset store. -/
theorem loadActivePreset_presets (s : DjState) :
    (loadActivePreset s).1.presets = s.presets := by
  unfold loadActivePreset
  cases jsGet s.presets s.activePresetName <;> rfl

/-- A successful save (non-blank trimmed name, not a default name,
overwrite confirmed) stores the live prompt map under the name, marks it
active and persists. -/
theorem saveCurrentPreset_success (s : DjState) (n0 : String)
    (hn0 : ¬ n0 = "") (hname : ¬ jsTrim n0 = "")
    (hdef : jsGet s.defaultPresets (jsTrim n0) = none) :
    saveCurrentPreset s (some n0) true
      = savePresetsToStorage { s with presets := jsSetAssoc s.presets (jsTrim n0) s.prompts, activePresetName := jsTrim n0 } := by
  simp [saveCurrentPreset, hn0, hname, hdef]

/-- C1 counterexample: saving the registry as "My Mix" stores a map that
shares its `Prompt` objects with the live registry.  At save time the
saved entry for "prompt-0" has weight 1; after the prompt-changed event
`d0` (a weight change to 2) mutates the shared object in place, reading
the SAVED preset's entry yields weight 2 — the stored preset is not a
deep copy and does not survive later registry mutation unchanged. -/
theorem save_not_deep_copy_cx :
    jsGet (saveCurrentPreset s0 (some "My Mix") true).presets "My Mix"
        = some [("prompt-0", 0)] ∧
    (derefD (saveCurrentPreset s0 (some "My Mix") true).heap 0).weight
        = 1 ∧
    jsGet ((handlePromptChanged (saveCurrentPreset s0 (some "My Mix") true)
        d0).1).presets "My Mix" = some [("prompt-0", 0)] ∧
    (derefD ((handlePromptChanged
        (saveCurrentPreset s0 (some "My Mix") true) d0).1).heap 0).weight
        = 2 ∧
    ¬ (2 : ℚ) = 1 :=
  ⟨by decide, by decide, by decide, by decide, by decide⟩

/-- C1 amended: a successful `save(name)` stores a SHALLOW copy — a new
map holding the same `(promptId, reference)` entries as the live
registry — so a weight change applied afterwards via a prompt-changed
event mutates the shared `Prompt` object in place and is visible through
the saved preset: dereferencing the saved preset's entry then yields the
event's weight, not the weight the registry had at save time.  (Only the
serialized blob written to storage at save time is a value snapshot.) -/
theorem save_shallow_copy_shares_mutations (s : DjState) (n0 : String)
    (d : Prompt) (r : Nat)
    (hn0 : ¬ n0 = "") (hname : ¬ jsTrim n0 = "")
    (hdef : jsGet s.defaultPresets (jsTrim n0) = none)
    (hr : jsGet s.prompts d.promptId = some r)
    (hlen : r < s.heap.length) :
    jsGet (saveCurrentPreset s (some n0) true).presets (jsTrim n0)
        = some s.prompts ∧
    jsGet ((handlePromptChanged (saveCurrentPreset s (some n0) true)
        d).1).presets (jsTrim n0) = some s.prompts ∧
    (derefD ((handlePromptChanged (saveCurrentPreset s (some n0) true)
        d).1).heap r).weight = d.weight := by
  have hsave := saveCurrentPreset_success s n0 hn0 hname hdef
  have hpresets : (saveCurrentPreset s (some n0) true).presets
      = jsSetAssoc s.presets (jsTrim n0) s.prompts := by
    rw [hsave]; rfl
  have hprompts : (saveCurrentPreset s (some n0) true).prompts
      = s.prompts := by
    rw [hsave]; rfl
  have hheap : (saveCurrentPreset s (some n0) true).heap = s.heap := by
    rw [hsave]; rfl
  refine ⟨?_, ?_, ?_⟩
  · rw [hpresets]
    exact jsGet_jsSetAssoc_self _ _ _
  · have h1 : ((handlePromptChanged (saveCurrentPreset s (some n0) true)
        d).1).presets = (saveCurrentPreset s (some n0) true).presets := by
      simp [handlePromptChanged, hprompts, hr]
    rw [h1, hpresets]
    exact jsGet_jsSetAssoc_self _ _ _
  · have h2 : ((handlePromptChanged (saveCurrentPreset s (some n0) true)
        d).1).heap
        = (saveCurrentPreset s (some n0) true).heap.set r
            { derefD (saveCurrentPreset s (some n0) true).heap r with text := d.text, weight := d.weight, cc := d.cc } := by
      simp [handlePromptChanged, hprompts, hr]
    rw [h2, hheap, derefD_set_self _ _ _ hlen]

/-- C1 amended witness: the concrete save-then-mutate run on `s0`. -/
theorem save_shallow_copy_shares_mutations_witness :
    jsGet (saveCurrentPreset s0 (some "My Mix") true).presets
        (jsTrim "My Mix") = some s0.prompts ∧
    jsGet ((handlePromptChanged (saveCurrentPreset s0 (some "My Mix") true)
        d0).1).presets (jsTrim "My Mix") = some s0.prompts ∧
    (derefD ((handlePromptChanged
        (saveCurrentPreset s0 (some "My Mix") true) d0).1).heap 0).weight
        = d0.weight :=
  save_shallow_copy_shares_mutations s0 "My Mix" d0 0 (by decide)
    (by decide) (by decide) (by decide) (by decide)

/-- C3 counterexample: with a malformed blob in storage, `loadPresets`
propagates the `JSON.parse` exception instead of treating the blob as
"no user presets" — startup preset loading fails with an error. -/
theorem loadPresets_malformed_throws_cx :
    loadPresets s0mal
        = Except.error "SyntaxError: Unexpected token in JSON" ∧
    deserializePresetsV StoredBlob.malformed
        = Except.error "SyntaxError: Unexpected token in JSON" :=
  ⟨rfl, rfl⟩

/-- C3 amended: MISSING stored data is treated as no user presets — the
load succeeds and the resulting store still holds exactly the default
presets; but MALFORMED stored data makes `loadPresets` propagate the
deserialization error (there is no try/catch), so startup preset loading
fails instead of falling back to defaults. -/
theorem loadPresets_missing_ok_malformed_error (s : DjState)
    (hnd : (s.defaultPresets.map Prod.fst).Nodup) :
    (s.storage = none →
      loadPresets s
          = Except.ok (loadActivePreset { s with presets := s.defaultPresets }) ∧
      (loadActivePreset { s with presets := s.defaultPresets }).1.presets
          = s.defaultPresets) ∧
    (s.storage = some StoredBlob.malformed →
      loadPresets s = Except.error "SyntaxError: Unexpected token in JSON") := by
  constructor
  · intro h
    constructor
    · simp [loadPresets, h, allocPresets, jsFromPairs_of_nodup hnd, pure,
        Except.pure, bind, Except.bind]
    · rw [loadActivePreset_presets]
  · intro h
    simp [loadPresets, h, deserializePresetsV, jsonParse]

/-- C3 amended witness: the concrete startup state with empty storage
loads the defaults; the same state with a malformed blob errors. -/
theorem loadPresets_missing_ok_malformed_error_witness :
    (loadPresets s0
        = Except.ok (loadActivePreset { s0 with presets := s0.defaultPresets }) ∧
      (loadActivePreset { s0 with presets := s0.defaultPresets }).1.presets
        = s0.defaultPresets) ∧
    loadPresets s0mal
        = Except.error "SyntaxError: Unexpected token in JSON" :=
  ⟨(loadPresets_missing_ok_malformed_error s0 (by decide)).1 rfl,
   (loadPresets_missing_ok_malformed_error s0mal (by decide)).2 rfl⟩

/-- C8: serializing then deserializing any preset mapping (preset names
unique, prompt ids unique within each preset, as they are in a JS `Map`)
yields a mapping with the same set of preset names — a permutation, since
JS property enumeration moves integer-like names to the front — and, for
every name, exactly the same ordered prompt entry list. -/
theorem presets_serialize_roundtrip
    (ps : List (String × List (String × Prompt)))
    (hn : (ps.map Prod.fst).Nodup)
    (he : ∀ e ∈ ps, (e.2.map Prod.fst).Nodup) :
    ∃ rt, deserializePresetsV (serializePresetsV ps) = Except.ok rt ∧
      (rt.map Prod.fst).Perm (ps.map Prod.fst) ∧
      ∀ n, jsGet rt n = jsGet ps n := by
  have hfp : jsFromPairs ps = ps := jsFromPairs_of_nodup hn
  have hp1 : (jsOwnKeyOrder ps).Perm ps := jsOwnKeyOrder_perm ps
  have hp2 : (jsOwnKeyOrder (jsOwnKeyOrder ps)).Perm ps :=
    (jsOwnKeyOrder_perm _).trans hp1
  have hnd2 : ((jsOwnKeyOrder (jsOwnKeyOrder ps)).map Prod.fst).Nodup :=
    ((hp2.map Prod.fst).symm).nodup hn
  have hmap : (jsOwnKeyOrder (jsOwnKeyOrder ps)).map
        (fun e => (e.1, jsFromPairs e.2))
      = jsOwnKeyOrder (jsOwnKeyOrder ps) := by
    have hx : ∀ e ∈ jsOwnKeyOrder (jsOwnKeyOrder ps),
        (e.1, jsFromPairs e.2) = e := by
      intro e hme
      rw [jsFromPairs_of_nodup (he e (hp2.mem_iff.mp hme))]
    calc (jsOwnKeyOrder (jsOwnKeyOrder ps)).map
          (fun e => (e.1, jsFromPairs e.2))
        = (jsOwnKeyOrder (jsOwnKeyOrder ps)).map id :=
          List.map_congr_left (fun a ha => hx a ha)
      _ = jsOwnKeyOrder (jsOwnKeyOrder ps) := List.map_id _
  refine ⟨jsOwnKeyOrder (jsOwnKeyOrder ps), ?_, hp2.map Prod.fst,
    fun n => jsGet_perm hp2 hnd2 n⟩
  simp only [serializePresetsV, deserializePresetsV, jsonParse, hfp]
  rw [hmap, jsFromPairs_of_nodup hnd2]

/-- C8 witness: the round trip on `ps8`, whose integer-like name "10" is
re-enumerated first: the names come back as a permutation and every
preset's entry list is recovered exactly. -/
theorem presets_serialize_roundtrip_witness :
    (ps8.map Prod.fst).Nodup ∧
    (∀ e ∈ ps8, (e.2.map Prod.fst).Nodup) ∧
    ∃ rt, deserializePresetsV (serializePresetsV ps8) = Except.ok rt ∧
      (rt.map Prod.fst).Perm (ps8.map Prod.fst) ∧
      ∀ n, jsGet rt n = jsGet ps8 n :=
  ⟨by decide, by decide,
   presets_serialize_roundtrip ps8 (by decide) (by decide)⟩
